import Mathlib

/-
  Verification development for the PlainEventContent plugin
  (src/plugins/PlainEventContent.cc, src/plugins/PlainEventContent.h).

  The per-event pipeline PlainEventContent::analyze is embedded shallowly:
  input collections become lists, reconstructed objects become records of
  their accessed attributes, and analyze becomes a function from the job
  configuration and the event to Except AnalyzeError Output.  Kinematic
  quantities are modelled over the rationals; the pull-angle computation,
  which involves pi, square roots and arctangent, is modelled over the
  reals.  An access that is undefined in the C++ source (front() of an
  empty collection, dereference of a null generator-MET pointer) is
  modelled as the error AnalyzeError.undefinedAccess, while the explicit
  zero-vertex check raises AnalyzeError.logicError.
-/

namespace PEC

/-- Reconstructed primary vertex.  The plugin only uses the size of the
vertex collection and passes the leading vertex to the muon
identification, so no attribute of the vertex itself is needed. -/
structure Vertex where
  id : ℕ
deriving DecidableEq

/-- Attributes of a pat::Electron accessed by the plugin. -/
structure SrcElectron where
  pt : ℚ
  eta : ℚ
  phi : ℚ
  charge : ℤ
  dB : ℚ
  chargedHadronIso : ℚ
  neutralHadronIso : ℚ
  photonIso : ℚ
  puChargedHadronIso : ℚ
  passConversionVeto : Bool

/-- Attributes of a pat::Muon accessed by the plugin.  The tight-muon
identification receives the leading primary vertex, as in
mu.isTightMuon(vertices->front()). -/
structure SrcMuon where
  pt : ℚ
  eta : ℚ
  phi : ℚ
  charge : ℤ
  dB : ℚ
  chargedHadronIso : ℚ
  neutralHadronIso : ℚ
  photonIso : ℚ
  puChargedHadronIso : ℚ
  isTightMuon : Vertex → Bool

/-- The uncorrected four-momentum of a jet, j.correctedP4("Uncorrected").
The rapidity is carried as a separate attribute, as the plugin reads it
with rawP4.Rapidity(). -/
structure RawP4 where
  pt : ℚ
  eta : ℚ
  phi : ℚ
  mass : ℚ
  rapidity : ℚ

/-- A jet constituent; only its pt, rapidity and phi are read. -/
structure Constituent where
  pt : ℚ
  rapidity : ℚ
  phi : ℚ

/-- The generator-level jet matched to a reconstructed jet, when present.
Its pt is read directly; deltaR carries the angular distance
DeltaR(j.p4(), j.genJet()->p4()), an upstream geometric quantity treated
as an opaque per-object attribute. -/
structure GenJet where
  pt : ℚ
  deltaR : ℚ

/-- Attributes of a pat::Jet accessed by the plugin.  The field pt, eta,
phi, mass hold the corrected (calibrated) four-momentum, rawP4 the
uncorrected one.  genJet is none when no generator-level match exists
(j.genJet() returns a null pointer). -/
structure SrcJet where
  pt : ℚ
  eta : ℚ
  phi : ℚ
  mass : ℚ
  rawP4 : RawP4
  jetArea : ℚ
  jetCharge : ℚ
  bTagCSV : ℚ
  vtxMass : ℚ
  hadronFlavour : ℤ
  daughters : List Constituent
  genJet : Option GenJet

/-- The systematic shifts of pat::MET used by the plugin: NoShift plus the
twelve enumerated variations. -/
inductive METShift
  | NoShift
  | JetEnUp | JetEnDown | JetResUp | JetResDown
  | MuonEnUp | MuonEnDown | ElectronEnUp | ElectronEnDown
  | TauEnUp | TauEnDown | UnclusteredEnUp | UnclusteredEnDown
deriving DecidableEq

/-- The correction level at which shifted MET values are read. -/
inductive METLevel
  | Raw
  | Type1
deriving DecidableEq

/-- Attributes of a pat::MET accessed by the plugin.  shiftedPt and
shiftedPhi are indexed by shift and correction level; genMET is none when
the generator-level MET pointer is null, otherwise it carries the pair
(pt, phi) of the generator-level MET. -/
structure SrcMET where
  shiftedPt : METShift → METLevel → ℚ
  shiftedPhi : METShift → METLevel → ℚ
  genMET : Option (ℚ × ℚ)

/-- One entry of the pile-up summary collection. -/
structure PileupSummaryInfo where
  bunchCrossing : ℤ
  trueNumInteractions : ℚ
  numInteractions : ℤ

/-- The PDF block of GenEventInfoProduct, when present. -/
structure PdfBlock where
  x1 : ℚ
  x2 : ℚ
  id1 : ℤ
  id2 : ℤ
  scalePDF : ℚ

/-- Attributes of GenEventInfoProduct accessed by the plugin. -/
structure GenEventInfo where
  signalProcessID : ℕ
  weights : List ℚ
  pdf : Option PdfBlock

/-- One input event: the event descriptor and the upstream collections the
plugin reads.  Electron identification maps are modelled as total maps
from the electron index to the stored decision. -/
structure Event where
  runNumber : ℕ
  eventNumber : ℕ
  lumiSection : ℕ
  primaryVertices : List Vertex
  electrons : List SrcElectron
  eleIDMaps : List (ℕ → Bool)
  muons : List SrcMuon
  jets : List SrcJet
  met : List SrcMET
  generator : GenEventInfo
  rho : ℚ
  puSummary : List PileupSummaryInfo

/-- The job configuration read in the constructor of PlainEventContent.
String-based selectors are modelled as the predicates they compile to;
compilation is configuration-time and out of scope. -/
structure Config where
  jetMinPt : ℚ
  jetMinRawPt : ℚ
  saveCorrectedJetMomenta : Bool
  runOnData : Bool
  eleSelectors : List (SrcElectron → Bool)
  muSelectors : List (SrcMuon → Bool)
  jetSelectors : List (SrcJet → Bool)

/-- Modelled from the spec: the packed bit field of the output classes in
UserCode/SingleTop/interface (pec::CandidateWithID and relatives), whose
code is not part of the staged sources.  Following section 4.2 of the
specification, the field packs booleans bound to fixed integer indices; it
is modelled as the map from the bit index to the stored boolean, with
SetBit(i, b) written as setBitField f i b. -/
def setBitField (f : ℕ → Bool) (i : ℕ) (b : Bool) : ℕ → Bool :=
  fun j => if j = i then b else f j

/-- Runs a loop of the form, for i in 0..n-1, SetBit(idx + i, sel_i x),
threading the running bit index: the translation of the selector loops of
PlainEventContent::analyze, which write user-selector decisions at
consecutive indices starting from idx. -/
def selectorBits {α : Type} (sels : List (α → Bool)) (x : α) (idx : ℕ)
    (f : ℕ → Bool) : ℕ → Bool :=
  match sels with
  | [] => f
  | s :: rest => selectorBits rest x (idx + 1) (setBitField f idx (s x))

/-- Modelled from the spec: the event identifier record (pec::EventID),
reset and refilled per event. -/
structure EventIDRec where
  runNumber : ℕ
  eventNumber : ℕ
  lumiSection : ℕ
deriving DecidableEq

/-- Modelled from the spec: a MET-like output record (pec::Candidate);
pseudorapidity and mass stay at the neutral zero value. -/
structure Candidate where
  pt : ℚ
  eta : ℚ
  phi : ℚ
  mass : ℚ
deriving DecidableEq

/-- Modelled from the spec: the state of a pec::Candidate after Reset, with
every field at its neutral zero value. -/
def Candidate.reset : Candidate := ⟨0, 0, 0, 0⟩

/-- Modelled from the spec: the electron output record (pec::Electron) with
the fields the plugin writes.  The cut-based identification decisions and
the boolean decisions live in two separate bit fields. -/
structure ElectronRec where
  pt : ℚ
  eta : ℚ
  phi : ℚ
  charge : ℤ
  dB : ℚ
  relIso : ℚ
  cutBasedId : ℕ → Bool
  bits : ℕ → Bool

/-- Modelled from the spec: the state of a pec::Electron after Reset. -/
def ElectronRec.reset : ElectronRec :=
  ⟨0, 0, 0, 0, 0, 0, fun _ => false, fun _ => false⟩

/-- Modelled from the spec: the muon output record (pec::Muon) with the
fields the plugin writes. -/
structure MuonRec where
  pt : ℚ
  eta : ℚ
  phi : ℚ
  charge : ℤ
  dB : ℚ
  relIso : ℚ
  bits : ℕ → Bool

/-- Modelled from the spec: the state of a pec::Muon after Reset. -/
def MuonRec.reset : MuonRec := ⟨0, 0, 0, 0, 0, 0, fun _ => false⟩

/-- Modelled from the spec: the jet output record (pec::Jet) with the
fields the plugin writes.  The pull angle is a real number. -/
structure JetRec where
  pt : ℚ
  eta : ℚ
  phi : ℚ
  mass : ℚ
  area : ℚ
  charge : ℚ
  bTagCSV : ℚ
  secVertexMass : ℚ
  pullAngle : ℝ
  flavour : ℤ
  bits : ℕ → Bool

/-- Modelled from the spec: the state of a pec::Jet after Reset, with
every field at its neutral zero value and every bit cleared. -/
noncomputable def JetRec.reset : JetRec :=
  ⟨0, 0, 0, 0, 0, 0, 0, 0, 0, 0, fun _ => false⟩

/-- Modelled from the spec: the generator information record
(pec::GeneratorInfo).  Reset clears the weights and zeroes the PDF
fields; AddWeight appends one weight. -/
structure GeneratorInfoRec where
  processId : ℕ
  weights : List ℚ
  pdfX1 : ℚ
  pdfX2 : ℚ
  pdfId1 : ℤ
  pdfId2 : ℤ
  pdfQScale : ℚ

/-- Modelled from the spec: the state of a pec::GeneratorInfo after
Reset. -/
def GeneratorInfoRec.reset : GeneratorInfoRec := ⟨0, [], 0, 0, 0, 0, 0⟩

/-- Modelled from the spec: the per-event pile-up record
(pec::PileUpInfo); trueNumPU and inTimePU are the simulation-only
fields. -/
structure PileUpInfoRec where
  numPV : ℕ
  rho : ℚ
  trueNumPU : ℚ
  inTimePU : ℤ
deriving DecidableEq

/-- Modelled from the spec: the state of a pec::PileUpInfo after Reset,
with every field at its neutral zero value. -/
def PileUpInfoRec.reset : PileUpInfoRec := ⟨0, 0, 0, 0⟩

/-- One filled record set, the content handed to outTree->Fill() for one
event.  genInfo is the content of the simulation-only generator branch and
is none exactly when that branch is not filled. -/
structure Output where
  eventId : EventIDRec
  electrons : List ElectronRec
  muons : List MuonRec
  jets : List JetRec
  mets : List Candidate
  genInfo : Option GeneratorInfoRec
  puInfo : PileUpInfoRec

/-- Branch names registered on the output tree by
PlainEventContent::beginJob, in registration order; the genInfo branch is
created only when runOnData is false. -/
def beginJobBranches (cfg : Config) : List String :=
  ["eventId", "electrons", "muons", "jets", "METs"]
    ++ (if cfg.runOnData then [] else ["genInfo"]) ++ ["puInfo"]

/-- How one call of PlainEventContent::analyze can fail.  logicError is
the edm::Exception of kind LogicError raised for an event with zero
primary vertices; undefinedAccess marks an operation whose behaviour the
C++ source leaves undefined, namely front() on an empty collection or the
dereference of a null generator-MET pointer. -/
inductive AnalyzeError
  | logicError
  | undefinedAccess
deriving DecidableEq

/-- Delta-beta-corrected relative isolation, as computed for electrons and
muons: (chargedHadronIso + max(neutralHadronIso + photonIso
- 0.5 * puChargedHadronIso, 0)) / pt. -/
def relIso (charged neutral photon pu pt : ℚ) : ℚ :=
  (charged + max (neutral + photon - (1 / 2) * pu) 0) / pt

/-- The electron record built for the electron at index i of the input
collection, following the body of the electron loop of analyze. -/
def makeElectron (cfg : Config) (maps : List (ℕ → Bool)) (i : ℕ)
    (el : SrcElectron) : ElectronRec :=
  { ElectronRec.reset with
    pt := el.pt, eta := el.eta, phi := el.phi,
    charge := el.charge, dB := el.dB,
    relIso := relIso el.chargedHadronIso el.neutralHadronIso el.photonIso
      el.puChargedHadronIso el.pt,
    cutBasedId := selectorBits maps i 0 ElectronRec.reset.cutBasedId,
    bits := selectorBits cfg.eleSelectors el 1
      (setBitField ElectronRec.reset.bits 0 el.passConversionVeto) }

/-- The muon record built for one muon, following the body of the muon
loop of analyze; pv is the leading primary vertex. -/
def makeMuon (cfg : Config) (pv : Vertex) (mu : SrcMuon) : MuonRec :=
  { MuonRec.reset with
    pt := mu.pt, eta := mu.eta, phi := mu.phi,
    charge := mu.charge, dB := mu.dB,
    relIso := relIso mu.chargedHadronIso mu.neutralHadronIso mu.photonIso
      mu.puChargedHadronIso mu.pt,
    bits := selectorBits cfg.muSelectors mu 1
      (setBitField MuonRec.reset.bits 0 (mu.isTightMuon pv)) }

/-- The two-argument arctangent, written as atan2 y x like the call
atan2(pullPhi, pullY) of the source; it equals the principal argument of
the complex number x + i y, with atan2 0 0 = 0. -/
noncomputable def atan2 (y x : ℝ) : ℝ := Complex.arg ⟨x, y⟩

/-- The azimuth-difference wrap of the pull-angle loop: one additive
correction by plus or minus two pi, applied when the difference leaves
[-pi, pi], exactly as the two-branch conditional of the source. -/
noncomputable def wrapDPhi (dPhi : ℝ) : ℝ :=
  if dPhi < -Real.pi then 2 * Real.pi + dPhi
  else if dPhi > Real.pi then -2 * Real.pi + dPhi
  else dPhi

/-- One iteration of the pull-angle loop: given the jet rapidity y and
azimuth phi, add the contribution of one constituent to the accumulated
pair (pullY, pullPhi); hypot is written as the square root of the sum of
squares. -/
noncomputable def pullStep (y phi : ℝ) (acc : ℝ × ℝ) (p : Constituent) :
    ℝ × ℝ :=
  let dPhi := wrapDPhi ((p.phi : ℝ) - phi)
  let r := Real.sqrt (((p.rapidity : ℝ) - y) ^ 2 + dPhi ^ 2)
  (acc.1 + (p.pt : ℝ) * r * ((p.rapidity : ℝ) - y),
   acc.2 + (p.pt : ℝ) * r * dPhi)

/-- The accumulated pull projections (pullY, pullPhi) over the constituent
list, starting from (0, 0). -/
noncomputable def pullSums (y phi : ℝ) (daughters : List Constituent) :
    ℝ × ℝ :=
  daughters.foldl (pullStep y phi) (0, 0)

/-- The stored pull angle of a jet: atan2(pullPhi, pullY) with the jet
direction taken from the uncorrected four-momentum. -/
noncomputable def jetPullAngle (j : SrcJet) : ℝ :=
  let s := pullSums (j.rawP4.rapidity : ℝ) (j.rawP4.phi : ℝ) j.daughters
  atan2 s.2 s.1

/-- The generator-level matching decision stored in bit 0 of a jet on
simulation: a generator-level jet exists, its pt exceeds 8, and its
angular distance to the reconstructed jet is below 0.25. -/
def jetGenMatch (j : SrcJet) : Bool :=
  match j.genJet with
  | none => false
  | some g => decide (g.pt > 8) && decide (g.deltaR < 1 / 4)

/-- The admission test of the jet loop: the corrected pt exceeds jetMinPt
or the raw pt exceeds jetMinRawPt. -/
def jetAdmitted (cfg : Config) (j : SrcJet) : Bool :=
  decide (j.pt > cfg.jetMinPt) || decide (j.rawP4.pt > cfg.jetMinRawPt)

/-- The jet record built for one admitted jet, following the body of the
jet loop of analyze. -/
noncomputable def makeJet (cfg : Config) (j : SrcJet) : JetRec :=
  let withP4 : JetRec :=
    if cfg.saveCorrectedJetMomenta then
      { JetRec.reset with
        pt := j.pt
        eta := j.eta
        phi := j.phi
        mass := j.mass }
    else
      { JetRec.reset with
        pt := j.rawP4.pt
        eta := j.rawP4.eta
        phi := j.rawP4.phi
        mass := j.rawP4.mass }
  { withP4 with
    area := j.jetArea, charge := j.jetCharge, bTagCSV := j.bTagCSV,
    secVertexMass := j.vtxMass,
    pullAngle := jetPullAngle j,
    flavour := if cfg.runOnData then JetRec.reset.flavour
      else j.hadronFlavour,
    bits := selectorBits cfg.jetSelectors j 1
      (if cfg.runOnData then JetRec.reset.bits
       else setBitField JetRec.reset.bits 0 (jetGenMatch j)) }

/-- The stored jet collection: one record per admitted jet, in input
order. -/
noncomputable def makeJets (cfg : Config) (jets : List SrcJet) :
    List JetRec :=
  (jets.filter (fun j => jetAdmitted cfg j)).map (makeJet cfg)

/-- The twelve systematic MET variations, in the order the source iterates
them. -/
def metVariations : List METShift :=
  [.JetEnUp, .JetEnDown, .JetResUp, .JetResDown,
   .MuonEnUp, .MuonEnDown, .ElectronEnUp, .ElectronEnDown,
   .TauEnUp, .TauEnDown, .UnclusteredEnUp, .UnclusteredEnDown]

/-- One stored MET record: a reset pec::Candidate whose pt and phi are the
shifted values at the given shift and correction level. -/
def metRecord (met : SrcMET) (v : METShift) (lv : METLevel) : Candidate :=
  { Candidate.reset with
    pt := met.shiftedPt v lv
    phi := met.shiftedPhi v lv }

/-- The generator information record built from GenEventInfoProduct: the
process identifier and the weights are always copied, the PDF fields only
when the PDF block is present. -/
def buildGenInfo (g : GenEventInfo) : GeneratorInfoRec :=
  let r0 := { GeneratorInfoRec.reset with
    processId := g.signalProcessID, weights := g.weights }
  match g.pdf with
  | none => r0
  | some p =>
    { r0 with
      pdfX1 := p.x1
      pdfX2 := p.x2
      pdfId1 := p.id1
      pdfId2 := p.id2
      pdfQScale := p.scalePDF }

/-- The data-always pile-up fields: vertex count and pile-up density,
written over a reset record. -/
def buildPuInfoData (nPV : ℕ) (rho : ℚ) : PileUpInfoRec :=
  { PileUpInfoRec.reset with numPV := nPV, rho := rho }

/-- The simulation-only pile-up fields: the true interaction count comes
from the first entry of the summary collection, the in-time count from
the first entry whose bunch crossing is zero, found by the loop-with-break
of the source; when no such entry exists the field keeps its value. -/
def setSimPileUp (base : PileUpInfoRec) (s : List PileupSummaryInfo)
    (front : PileupSummaryInfo) : PileUpInfoRec :=
  let withTrue := { base with trueNumPU := front.trueNumInteractions }
  match s.find? (fun e => e.bunchCrossing == 0) with
  | some e => { withTrue with inTimePU := e.numInteractions }
  | none => withTrue

/-- The per-event pipeline PlainEventContent::analyze.  It builds the
event identifier, checks the primary-vertex collection, fills the
electron, muon and jet records, the MET records, the simulation-only
generator record and the pile-up record, and returns the record set that
outTree->Fill() persists; an error means the tree is not filled for this
event. -/
noncomputable def analyze (cfg : Config) (ev : Event) :
    Except AnalyzeError Output :=
  match ev.primaryVertices with
  | [] => .error .logicError
  | pv :: _ =>
    let electrons := ev.electrons.enum.map fun p =>
      makeElectron cfg ev.eleIDMaps p.1 p.2
    let muons := ev.muons.map (makeMuon cfg pv)
    let jets := makeJets cfg ev.jets
    match ev.met with
    | [] => .error .undefinedAccess
    | met :: _ =>
      let nominalRaw := [metRecord met .NoShift .Type1,
        metRecord met .NoShift .Raw]
      let varMets := if cfg.runOnData then []
        else metVariations.map fun v => metRecord met v .Type1
      let genMetRes : Except AnalyzeError (List Candidate) :=
        if cfg.runOnData then .ok []
        else
          match met.genMET with
          | none => .error .undefinedAccess
          | some g => .ok [{ Candidate.reset with pt := g.1, phi := g.2 }]
      match genMetRes with
      | .error e => .error e
      | .ok genMets =>
        let genInfo := if cfg.runOnData then none
          else some (buildGenInfo ev.generator)
        let puBase := buildPuInfoData ev.primaryVertices.length ev.rho
        let puRes : Except AnalyzeError PileUpInfoRec :=
          if cfg.runOnData then .ok puBase
          else
            match ev.puSummary with
            | [] => .error .undefinedAccess
            | front :: _ => .ok (setSimPileUp puBase ev.puSummary front)
        match puRes with
        | .error e => .error e
        | .ok pu =>
          .ok { eventId := ⟨ev.runNumber, ev.eventNumber, ev.lumiSection⟩,
                electrons := electrons, muons := muons, jets := jets,
                mets := nominalRaw ++ varMets ++ genMets,
                genInfo := genInfo, puInfo := pu }

/-- Running the per-event pipeline twice on the same configuration and
event, as the determinism property speaks of two runs. -/
noncomputable def analyzeTwice (cfg : Config) (ev : Event) :
    Except AnalyzeError Output × Except AnalyzeError Output :=
  (analyze cfg ev, analyze cfg ev)

/-- The precondition under which every collection access of analyze is
well defined, beyond the explicitly checked vertex count: the MET
collection is non-empty, and on simulation the generator-level MET
pointer of its first element is non-null and the pile-up summary is
non-empty. -/
def accessPre (cfg : Config) (ev : Event) : Prop :=
  match ev.met with
  | [] => False
  | m :: _ => cfg.runOnData = true ∨
      (m.genMET ≠ none ∧ ev.puSummary ≠ [])

/-- A real-data job configuration with thresholds 20 and 10 and no
user-defined selectors. -/
def cfgData : Config := ⟨20, 10, false, true, [], [], []⟩

/-- A real-data job configuration with a single jet selector that accepts
every jet. -/
def cfgOneSel : Config := ⟨20, 10, false, true, [], [], [fun _ => true]⟩

/-- A simulation job configuration with thresholds 20 and 10 and no
user-defined selectors. -/
def cfgSim : Config := ⟨20, 10, false, false, [], [], []⟩

/-- A jet admitted through its corrected pt: corrected pt 25, raw pt 5. -/
def jetHighCorr : SrcJet :=
  ⟨25, 0, 0, 0, ⟨5, 0, 0, 0, 0⟩, 0, 0, 0, 0, 0, [], none⟩

/-- A jet below both thresholds: corrected pt 15, raw pt 8. -/
def jetLow : SrcJet :=
  ⟨15, 0, 0, 0, ⟨8, 0, 0, 0, 0⟩, 0, 0, 0, 0, 0, [], none⟩

/-- A jet admitted through its raw pt only: corrected pt 0, raw pt 12. -/
def jetHighRaw : SrcJet :=
  ⟨0, 0, 0, 0, ⟨12, 0, 0, 0, 0⟩, 0, 0, 0, 0, 0, [], none⟩

/-- A MET object whose raw-level values differ from the type-1 values, so
the stored records are distinguishable; its generator-level MET pointer
is null. -/
def metData : SrcMET :=
  { shiftedPt := fun _ lv => match lv with | .Type1 => 30 | .Raw => 17
    shiftedPhi := fun _ _ => 1
    genMET := none }

/-- A MET object like metData but with a generator-level MET of pt 3 and
phi 4. -/
def metSim : SrcMET :=
  { shiftedPt := fun _ lv => match lv with | .Type1 => 30 | .Raw => 17
    shiftedPhi := fun _ _ => 1
    genMET := some (3, 4) }

/-- A concrete real-data event: one vertex, no leptons, three jets of
which two pass the admission test, one MET object. -/
def evData : Event :=
  { runNumber := 1
    eventNumber := 2
    lumiSection := 3
    primaryVertices := [⟨0⟩]
    electrons := []
    eleIDMaps := []
    muons := []
    jets := [jetHighCorr, jetLow, jetHighRaw]
    met := [metData]
    generator := ⟨0, [], none⟩
    rho := 0
    puSummary := [] }

/-- The record set analyze produces for evData under cfgData. -/
noncomputable def outData : Output :=
  { eventId := ⟨1, 2, 3⟩
    electrons := []
    muons := []
    jets := [makeJet cfgData jetHighCorr, makeJet cfgData jetHighRaw]
    mets := [metRecord metData .NoShift .Type1,
      metRecord metData .NoShift .Raw]
    genInfo := none
    puInfo := buildPuInfoData 1 0 }

/-- A generator information product with one weight and a present PDF
block. -/
def genSim : GenEventInfo := ⟨11, [3 / 2], some ⟨1 / 10, 2 / 10, 1, -2, 100⟩⟩

/-- A pile-up summary entry at bunch crossing 5, so not the in-time
one. -/
def puSim : PileupSummaryInfo := ⟨5, 30, 7⟩

/-- A concrete simulation event: one vertex, no leptons, no jets, one MET
object with a generator-level MET, one pile-up summary entry at a
non-zero bunch crossing. -/
def evSim : Event :=
  { runNumber := 5
    eventNumber := 6
    lumiSection := 7
    primaryVertices := [⟨0⟩]
    electrons := []
    eleIDMaps := []
    muons := []
    jets := []
    met := [metSim]
    generator := genSim
    rho := 2
    puSummary := [puSim] }

/-- The record set analyze produces for evSim under cfgSim. -/
noncomputable def outSim : Output :=
  { eventId := ⟨5, 6, 7⟩
    electrons := []
    muons := []
    jets := []
    mets := [metRecord metSim .NoShift .Type1, metRecord metSim .NoShift .Raw]
      ++ metVariations.map (fun v => metRecord metSim v .Type1)
      ++ [{ Candidate.reset with pt := 3, phi := 4 }]
    genInfo := some (buildGenInfo genSim)
    puInfo := setSimPileUp (buildPuInfoData 1 2) evSim.puSummary puSim }

/-- An electron whose attributes other than pt are zero except for a
negative charged-hadron isolation sum of -1; its pt is 1. -/
def elNegIso : SrcElectron := ⟨1, 0, 0, 0, 0, -1, 0, 0, 0, false⟩

/-- An electron with non-negative isolation sums: charged 2, neutral 1,
photon 1, pile-up 6, pt 10. -/
def elW : SrcElectron := ⟨10, 0, 0, -1, 0, 2, 1, 1, 6, true⟩

/-- A muon with non-negative isolation sums: charged 3, neutral 0, photon
1, pile-up 8, pt 20; its tight identification accepts any vertex. -/
def muW : SrcMuon := ⟨20, 0, 0, 1, 0, 3, 0, 1, 8, fun _ => true⟩

/-- The event evData with its primary-vertex collection emptied. -/
def evNoPV : Event := { evData with primaryVertices := [] }

/-- A jet with one constituent at pt 1, rapidity 1 and azimuth 1, its own
axis at azimuth 0 and rapidity 0. -/
def jetPull : SrcJet :=
  ⟨25, 0, 0, 0, ⟨25, 0, 0, 0, 0⟩, 0, 0, 0, 0, 0, [⟨1, 1, 1⟩], none⟩

/-- Reading back the bit just set returns the stored boolean. -/
theorem setBitField_self (f : ℕ → Bool) (i : ℕ) (b : Bool) :
    setBitField f i b i = b := by
  simp [setBitField]

/-- Setting one bit leaves every other bit unchanged. -/
theorem setBitField_other (f : ℕ → Bool) (i j : ℕ) (b : Bool)
    (h : j ≠ i) : setBitField f i b j = f j := by
  simp [setBitField, h]

/-- The selector loop never writes below its starting index. -/
theorem selectorBits_below {α : Type} (sels : List (α → Bool)) (x : α) :
    ∀ (idx j : ℕ) (f : ℕ → Bool), j < idx →
      selectorBits sels x idx f j = f j := by
  induction sels with
  | nil => intro idx j f _; rfl
  | cons s rest ih =>
    intro idx j f h
    show selectorBits rest x (idx + 1) (setBitField f idx (s x)) j = f j
    rw [ih (idx + 1) j _ (Nat.lt_succ_of_lt h)]
    exact setBitField_other f idx j (s x) (Nat.ne_of_lt h)

/-- The selector loop starting at index idx stores the decision of the
selector at position i of the configured list at bit index idx + i. -/
theorem selectorBits_get {α : Type} (sels : List (α → Bool)) (x : α) :
    ∀ (idx i : ℕ) (f : ℕ → Bool) (hi : i < sels.length),
      selectorBits sels x idx f (idx + i) = sels.get ⟨i, hi⟩ x := by
  induction sels with
  | nil => intro idx i f hi; exact absurd hi (Nat.not_lt_zero i)
  | cons s rest ih =>
    intro idx i f hi
    match i with
    | 0 =>
      show selectorBits rest x (idx + 1)
        (setBitField f idx (s x)) (idx + 0) = s x
      rw [selectorBits_below rest x (idx + 1) (idx + 0) _ (by omega)]
      simp [setBitField]
    | n + 1 =>
      have harr : idx + (n + 1) = (idx + 1) + n := by omega
      calc selectorBits (s :: rest) x idx f (idx + (n + 1))
          = selectorBits rest x (idx + 1)
              (setBitField f idx (s x)) ((idx + 1) + n) := by
                rw [← harr]; exact rfl
        _ = rest.get ⟨n, Nat.lt_of_succ_lt_succ hi⟩ x :=
            ih (idx + 1) n _ (Nat.lt_of_succ_lt_succ hi)

/-- Structural description of one successful run of analyze: the vertex
and MET collections are non-empty, and every component of the record set
is the one built by the corresponding builder, with the simulation-only
parts present exactly when runOnData is false. -/
theorem analyze_ok_shape (cfg : Config) (ev : Event) (out : Output)
    (h : analyze cfg ev = Except.ok out) :
    ∃ pv vRest met mRest,
      ev.primaryVertices = pv :: vRest ∧ ev.met = met :: mRest ∧
      out.eventId = ⟨ev.runNumber, ev.eventNumber, ev.lumiSection⟩ ∧
      out.electrons = ev.electrons.enum.map
        (fun p => makeElectron cfg ev.eleIDMaps p.1 p.2) ∧
      out.muons = ev.muons.map (makeMuon cfg pv) ∧
      out.jets = makeJets cfg ev.jets ∧
      (cfg.runOnData = true →
        out.mets = [metRecord met .NoShift .Type1,
          metRecord met .NoShift .Raw] ∧
        out.genInfo = none ∧
        out.puInfo = buildPuInfoData ev.primaryVertices.length ev.rho) ∧
      (cfg.runOnData = false →
        ∃ g front pRest, met.genMET = some g ∧
          ev.puSummary = front :: pRest ∧
          out.mets = [metRecord met .NoShift .Type1,
              metRecord met .NoShift .Raw]
            ++ metVariations.map (fun v => metRecord met v .Type1)
            ++ [{ Candidate.reset with pt := g.1, phi := g.2 }] ∧
          out.genInfo = some (buildGenInfo ev.generator) ∧
          out.puInfo = setSimPileUp
            (buildPuInfoData ev.primaryVertices.length ev.rho)
            ev.puSummary front) := by
  unfold analyze at h
  cases hpv : ev.primaryVertices with
  | nil => rw [hpv] at h; simp at h
  | cons pv vRest =>
    rw [hpv] at h
    cases hmet : ev.met with
    | nil => rw [hmet] at h; simp at h
    | cons met mRest =>
      rw [hmet] at h
      by_cases hd : cfg.runOnData = true
      · simp only [hd, if_true] at h
        rw [Except.ok.injEq] at h
        subst h
        exact ⟨pv, vRest, met, mRest, rfl, rfl, rfl, rfl, rfl, rfl,
          fun _ => ⟨by simp, rfl, rfl⟩,
          fun hf => absurd (hd.symm.trans hf) (by simp)⟩
      · have hdf : cfg.runOnData = false := by
          simpa using hd
        simp only [hdf, Bool.false_eq_true, if_false] at h
        cases hgm : met.genMET with
        | none => rw [hgm] at h; simp at h
        | some g =>
          rw [hgm] at h
          cases hpu : ev.puSummary with
          | nil => rw [hpu] at h; simp at h
          | cons front pRest =>
            rw [hpu] at h
            rw [Except.ok.injEq] at h
            subst h
            exact ⟨pv, vRest, met, mRest, rfl, rfl, rfl, rfl, rfl, rfl,
              fun hf => absurd (hdf.symm.trans hf) (by simp),
              fun _ => ⟨g, front, pRest, hgm, rfl, rfl, rfl, rfl⟩⟩

/-- Claim C1: a jet enters the stored jet collection exactly when its
corrected pt exceeds jetMinPt or its raw pt exceeds jetMinRawPt; a jet
with both values at or below the thresholds is excluded.  The stored jet
collection of a successful run is the admitted sub-list of the input
collection, in input order. -/
theorem C1_jet_admission (cfg : Config) (ev : Event) (out : Output)
    (h : analyze cfg ev = Except.ok out) :
    out.jets = (ev.jets.filter
        (fun j => jetAdmitted cfg j)).map (makeJet cfg) ∧
      ∀ j : SrcJet, jetAdmitted cfg j = true ↔
        (j.pt > cfg.jetMinPt ∨ j.rawP4.pt > cfg.jetMinRawPt) := by
  obtain ⟨pv, vRest, met, mRest, _, _, _, _, _, hjets, _, _⟩ :=
    analyze_ok_shape cfg ev out h
  refine ⟨hjets, fun j => ?_⟩
  simp [jetAdmitted]

/-- Witness for C1 at a concrete event: analyze succeeds on evData, the
stored jets are the admitted ones, and of the three input jets exactly
the first (corrected pt 25, raw pt 5) and the third (corrected pt 0, raw
pt 12) are admitted under thresholds 20 and 10. -/
theorem C1_jet_admission_witness :
    analyze cfgData evData = Except.ok outData ∧
    outData.jets = (evData.jets.filter
      (fun j => jetAdmitted cfgData j)).map (makeJet cfgData) ∧
    evData.jets.filter (fun j => jetAdmitted cfgData j)
      = [jetHighCorr, jetHighRaw] := by
  have h : analyze cfgData evData = Except.ok outData := rfl
  exact ⟨h, (C1_jet_admission cfgData evData outData h).1, rfl⟩

/-- Claim C2 counterexample: on real data (cfgOneSel.runOnData = true)
with a single configured jet selector that returns true, the selector
decision is stored at bit index 1, not at bit index 0 as the claim
states for real data; bit 0 stays false. -/
theorem C2_counterexample :
    cfgOneSel.runOnData = true ∧
    cfgOneSel.jetSelectors.length = 1 ∧
    cfgOneSel.jetSelectors.headI jetHighCorr = true ∧
    (makeJet cfgOneSel jetHighCorr).bits 0 = false ∧
    (makeJet cfgOneSel jetHighCorr).bits 1 = true :=
  ⟨rfl, rfl, rfl, rfl, rfl⟩

/-- Claim C2 (amended): bit 0 of a jet record carries the
generator-match decision on simulation and is never written on real
data, where it keeps the false value left by Reset; in both cases the
decision of the configured jet selector at position i is stored at bit
index 1 + i. -/
theorem C2_jet_bit_indices (cfg : Config) (j : SrcJet) (i : ℕ)
    (hi : i < cfg.jetSelectors.length) :
    (makeJet cfg j).bits (1 + i) = cfg.jetSelectors.get ⟨i, hi⟩ j ∧
    (cfg.runOnData = true → (makeJet cfg j).bits 0 = false) ∧
    (cfg.runOnData = false → (makeJet cfg j).bits 0 = jetGenMatch j) := by
  have hbits : (makeJet cfg j).bits = selectorBits cfg.jetSelectors j 1
      (if cfg.runOnData then JetRec.reset.bits
       else setBitField JetRec.reset.bits 0 (jetGenMatch j)) := rfl
  refine ⟨?_, ?_, ?_⟩
  · rw [hbits]
    exact selectorBits_get cfg.jetSelectors j 1 i _ hi
  · intro hd
    rw [hbits, selectorBits_below cfg.jetSelectors j 1 0 _ (by omega), hd]
    rfl
  · intro hd
    rw [hbits, selectorBits_below cfg.jetSelectors j 1 0 _ (by omega), hd]
    simp [setBitField]

/-- Witness for the amended C2 at a concrete jet and configuration with
one selector: bit 1 carries the selector decision and bit 0 is false on
real data. -/
theorem C2_jet_bit_indices_witness :
    0 < cfgOneSel.jetSelectors.length ∧
    (makeJet cfgOneSel jetHighCorr).bits (1 + 0) =
      cfgOneSel.jetSelectors.headI jetHighCorr ∧
    (makeJet cfgOneSel jetHighCorr).bits 0 = false := by
  have h0 : 0 < cfgOneSel.jetSelectors.length := by decide
  obtain ⟨h1, h2, _⟩ := C2_jet_bit_indices cfgOneSel jetHighCorr 0 h0
  exact ⟨h0, by rw [h1]; rfl, h2 rfl⟩

/-- Claim C3 counterexample: with a charged-hadron isolation sum of -1,
all other sub-components zero and pt 1, the stored electron relative
isolation equals -1, so the ratio is not non-negative for arbitrary
sub-component values: the clamp applies only to the neutral-hadron plus
photon minus pile-up part, not to the charged-hadron term. -/
theorem C3_counterexample :
    (makeElectron cfgData [] 0 elNegIso).relIso < 0 := by
  norm_num [makeElectron, elNegIso, relIso]

/-- Claim C3 (amended): whenever the charged-hadron isolation sum and the
transverse momentum are non-negative, as physical isolation sums and
momenta are, the stored relative isolation of electrons and muons is
non-negative for any values of the remaining sub-components, including a
strongly negative pile-up-subtracted term, because that term is clamped
at zero before the division. -/
theorem C3_rel_iso_nonneg (cfg : Config) (maps : List (ℕ → Bool)) (i : ℕ)
    (el : SrcElectron) (pv : Vertex) (mu : SrcMuon)
    (hel : 0 ≤ el.chargedHadronIso) (helpt : 0 ≤ el.pt)
    (hmu : 0 ≤ mu.chargedHadronIso) (hmupt : 0 ≤ mu.pt) :
    0 ≤ (makeElectron cfg maps i el).relIso ∧
    0 ≤ (makeMuon cfg pv mu).relIso := by
  have key : ∀ c n p u q : ℚ, 0 ≤ c → 0 ≤ q → 0 ≤ relIso c n p u q := by
    intro c n p u q hc hq
    unfold relIso
    have hmax : (0 : ℚ) ≤ max (n + p - 1 / 2 * u) 0 := le_max_right _ _
    have hnum : (0 : ℚ) ≤ c + max (n + p - 1 / 2 * u) 0 := by linarith
    exact div_nonneg hnum hq
  exact ⟨key _ _ _ _ _ hel helpt, key _ _ _ _ _ hmu hmupt⟩

/-- Witness for the amended C3 at concrete objects with non-negative
charged-hadron sums and momenta. -/
theorem C3_rel_iso_nonneg_witness :
    (0 ≤ elW.chargedHadronIso ∧ 0 ≤ elW.pt ∧
     0 ≤ muW.chargedHadronIso ∧ 0 ≤ muW.pt) ∧
    0 ≤ (makeElectron cfgData [] 0 elW).relIso ∧
    0 ≤ (makeMuon cfgData ⟨0⟩ muW).relIso := by
  have h := C3_rel_iso_nonneg cfgData [] 0 elW ⟨0⟩ muW
    (by norm_num [elW]) (by norm_num [elW])
    (by norm_num [muW]) (by norm_num [muW])
  exact ⟨⟨by norm_num [elW], by norm_num [elW],
    by norm_num [muW], by norm_num [muW]⟩, h⟩

/-- Claim C4: for an event whose primary-vertex collection is empty,
analyze stops with the logic-error condition and produces no record
set, so the output tree is not filled for that event. -/
theorem C4_zero_vertices (cfg : Config) (ev : Event)
    (h : ev.primaryVertices = []) :
    analyze cfg ev = Except.error AnalyzeError.logicError ∧
    ∀ out : Output, analyze cfg ev ≠ Except.ok out := by
  have he : analyze cfg ev = Except.error AnalyzeError.logicError := by
    unfold analyze
    rw [h]
  exact ⟨he, fun out hc => by
    rw [he] at hc
    exact Except.noConfusion hc⟩

/-- Witness for C4 at a concrete event with zero vertices. -/
theorem C4_zero_vertices_witness :
    evNoPV.primaryVertices = [] ∧
    analyze cfgData evNoPV = Except.error AnalyzeError.logicError :=
  ⟨rfl, (C4_zero_vertices cfgData evNoPV rfl).1⟩

/-- For a raw azimuth difference strictly between minus two pi and two
pi, the single additive wrap lands in the closed interval from minus pi
to pi, and the correction applied is plus two pi, nothing, or minus two
pi. -/
theorem wrapDPhi_mem (d : ℝ) (h1 : -(2 * Real.pi) < d)
    (h2 : d < 2 * Real.pi) :
    wrapDPhi d ∈ Set.Icc (-Real.pi) Real.pi ∧
    (wrapDPhi d - d = 2 * Real.pi ∨ wrapDPhi d = d ∨
      wrapDPhi d - d = -(2 * Real.pi)) := by
  have hpi := Real.pi_pos
  simp only [Set.mem_Icc]
  unfold wrapDPhi
  by_cases hlt : d < -Real.pi
  · rw [if_pos hlt]
    exact ⟨⟨by linarith, by linarith⟩, Or.inl (by ring)⟩
  · rw [if_neg hlt]
    by_cases hgt : d > Real.pi
    · rw [if_pos hgt]
      exact ⟨⟨by linarith, by linarith⟩, Or.inr (Or.inr (by ring))⟩
    · rw [if_neg hgt]
      exact ⟨⟨by linarith, by linarith⟩, Or.inr (Or.inl rfl)⟩

/-- The pull accumulation loop, started from an arbitrary accumulator,
adds the sums of the per-constituent terms componentwise. -/
theorem pullFold_acc (y phi : ℝ) (ds : List Constituent) :
    ∀ a b : ℝ, ds.foldl (pullStep y phi) (a, b) =
      (a + (ds.map fun p => (p.pt : ℝ)
          * Real.sqrt (((p.rapidity : ℝ) - y) ^ 2
            + (wrapDPhi ((p.phi : ℝ) - phi)) ^ 2)
          * ((p.rapidity : ℝ) - y)).sum,
       b + (ds.map fun p => (p.pt : ℝ)
          * Real.sqrt (((p.rapidity : ℝ) - y) ^ 2
            + (wrapDPhi ((p.phi : ℝ) - phi)) ^ 2)
          * wrapDPhi ((p.phi : ℝ) - phi)).sum) := by
  induction ds with
  | nil => intro a b; simp
  | cons p rest ih =>
    intro a b
    show rest.foldl (pullStep y phi) (pullStep y phi (a, b) p) = _
    rw [show pullStep y phi (a, b) p =
      (a + (p.pt : ℝ)
        * Real.sqrt (((p.rapidity : ℝ) - y) ^ 2
          + (wrapDPhi ((p.phi : ℝ) - phi)) ^ 2)
        * ((p.rapidity : ℝ) - y),
       b + (p.pt : ℝ)
        * Real.sqrt (((p.rapidity : ℝ) - y) ^ 2
          + (wrapDPhi ((p.phi : ℝ) - phi)) ^ 2)
        * wrapDPhi ((p.phi : ℝ) - phi)) from rfl]
    rw [ih]
    simp only [List.map_cons, List.sum_cons]
    exact Prod.ext (by ring) (by ring)

/-- The accumulated pull projections are the plain sums of the
pt-times-distance-weighted rapidity and azimuth differences; no
normalisation by the total pt is applied. -/
theorem pullSums_eq (y phi : ℝ) (ds : List Constituent) :
    pullSums y phi ds =
      ((ds.map fun p => (p.pt : ℝ)
          * Real.sqrt (((p.rapidity : ℝ) - y) ^ 2
            + (wrapDPhi ((p.phi : ℝ) - phi)) ^ 2)
          * ((p.rapidity : ℝ) - y)).sum,
       (ds.map fun p => (p.pt : ℝ)
          * Real.sqrt (((p.rapidity : ℝ) - y) ^ 2
            + (wrapDPhi ((p.phi : ℝ) - phi)) ^ 2)
          * wrapDPhi ((p.phi : ℝ) - phi)).sum) := by
  unfold pullSums
  rw [pullFold_acc]
  simp

/-- Claim C5 counterexample: the azimuths 0 and pi both lie in the
half-open interval from minus pi exclusive to pi inclusive, their
difference 0 - pi equals minus pi, and the wrap leaves it at minus pi,
which is outside that half-open interval; the wrap therefore does not
normalise every azimuth difference into the interval the claim names. -/
theorem C5_counterexample :
    ((0 : ℝ) ∈ Set.Ioc (-Real.pi) Real.pi ∧
      Real.pi ∈ Set.Ioc (-Real.pi) Real.pi) ∧
    wrapDPhi (0 - Real.pi) = -Real.pi ∧
    ¬ wrapDPhi (0 - Real.pi) ∈ Set.Ioc (-Real.pi) Real.pi := by
  have hpi := Real.pi_pos
  have h1 : wrapDPhi (0 - Real.pi) = -Real.pi := by
    unfold wrapDPhi
    rw [zero_sub, if_neg (lt_irrefl _),
      if_neg (by linarith : ¬ -Real.pi > Real.pi)]
  refine ⟨⟨⟨by linarith, by linarith⟩, ⟨by linarith, le_refl _⟩⟩, h1, ?_⟩
  rw [h1]
  simp only [Set.mem_Ioc]
  intro hc
  exact absurd hc.1 (lt_irrefl _)

/-- Claim C5 (amended): when the jet axis azimuth and every constituent
azimuth lie in the half-open interval from minus pi exclusive to pi
inclusive, each azimuth difference is brought by a single additive
correction of plus or minus two pi (or left unchanged) into the closed
interval from minus pi to pi, the boundary value minus pi being
attainable; the accumulated projections are the plain pt-weighted sums,
and the pull angle is atan2 of the azimuth projection over the rapidity
projection with no normalisation by the total pt. -/
theorem C5_pull_angle (j : SrcJet)
    (hj : (j.rawP4.phi : ℝ) ∈ Set.Ioc (-Real.pi) Real.pi)
    (hds : ∀ p ∈ j.daughters, (p.phi : ℝ) ∈ Set.Ioc (-Real.pi) Real.pi) :
    (∀ p ∈ j.daughters,
      wrapDPhi ((p.phi : ℝ) - (j.rawP4.phi : ℝ))
          ∈ Set.Icc (-Real.pi) Real.pi ∧
      (wrapDPhi ((p.phi : ℝ) - (j.rawP4.phi : ℝ))
            - ((p.phi : ℝ) - (j.rawP4.phi : ℝ)) = 2 * Real.pi ∨
        wrapDPhi ((p.phi : ℝ) - (j.rawP4.phi : ℝ))
            = (p.phi : ℝ) - (j.rawP4.phi : ℝ) ∨
        wrapDPhi ((p.phi : ℝ) - (j.rawP4.phi : ℝ))
            - ((p.phi : ℝ) - (j.rawP4.phi : ℝ)) = -(2 * Real.pi))) ∧
    pullSums (j.rawP4.rapidity : ℝ) (j.rawP4.phi : ℝ) j.daughters =
      ((j.daughters.map fun p => (p.pt : ℝ)
          * Real.sqrt (((p.rapidity : ℝ) - (j.rawP4.rapidity : ℝ)) ^ 2
            + (wrapDPhi ((p.phi : ℝ) - (j.rawP4.phi : ℝ))) ^ 2)
          * ((p.rapidity : ℝ) - (j.rawP4.rapidity : ℝ))).sum,
       (j.daughters.map fun p => (p.pt : ℝ)
          * Real.sqrt (((p.rapidity : ℝ) - (j.rawP4.rapidity : ℝ)) ^ 2
            + (wrapDPhi ((p.phi : ℝ) - (j.rawP4.phi : ℝ))) ^ 2)
          * wrapDPhi ((p.phi : ℝ) - (j.rawP4.phi : ℝ))).sum) ∧
    jetPullAngle j = atan2
      (pullSums (j.rawP4.rapidity : ℝ) (j.rawP4.phi : ℝ) j.daughters).2
      (pullSums (j.rawP4.rapidity : ℝ) (j.rawP4.phi : ℝ) j.daughters).1 := by
  simp only [Set.mem_Ioc] at hj
  refine ⟨?_, pullSums_eq _ _ _, rfl⟩
  intro p hp
  have hpphi := hds p hp
  simp only [Set.mem_Ioc] at hpphi
  exact wrapDPhi_mem _ (by linarith) (by linarith)

/-- Witness for the amended C5 at a concrete jet with one constituent:
the axis azimuth 0 lies in the required interval and the stored pull
angle is atan2 of the accumulated projections. -/
theorem C5_pull_angle_witness :
    ((jetPull.rawP4.phi : ℝ) ∈ Set.Ioc (-Real.pi) Real.pi) ∧
    jetPullAngle jetPull = atan2
      (pullSums (jetPull.rawP4.rapidity : ℝ) (jetPull.rawP4.phi : ℝ)
        jetPull.daughters).2
      (pullSums (jetPull.rawP4.rapidity : ℝ) (jetPull.rawP4.phi : ℝ)
        jetPull.daughters).1 := by
  have hpi := Real.pi_pos
  have hgt := Real.pi_gt_three
  have hj : (jetPull.rawP4.phi : ℝ) ∈ Set.Ioc (-Real.pi) Real.pi := by
    show ((0 : ℚ) : ℝ) ∈ Set.Ioc (-Real.pi) Real.pi
    rw [Rat.cast_zero]
    exact ⟨by linarith, by linarith⟩
  have hds : ∀ p ∈ jetPull.daughters,
      (p.phi : ℝ) ∈ Set.Ioc (-Real.pi) Real.pi := by
    intro p hp
    have : p = (⟨1, 1, 1⟩ : Constituent) := by
      simpa [jetPull] using hp
    rw [this]
    show ((1 : ℚ) : ℝ) ∈ Set.Ioc (-Real.pi) Real.pi
    rw [Rat.cast_one]
    exact ⟨by linarith, by linarith⟩
  exact ⟨hj, (C5_pull_angle jetPull hj hds).2.2⟩

/-- Claim C6: with the real-data flag set, a successful run populates no
generator-derived data: the generator branch content is absent, every
stored jet keeps the reset truth-flavour code and a false
generator-match bit, the simulation-only pile-up fields keep their reset
values, only the two non-generator MET records are emitted, and the
genInfo branch exists in the output schema exactly when the flag is
false. -/
theorem C6_real_data_gating (cfg : Config) (ev : Event) (out : Output)
    (hrd : cfg.runOnData = true) (h : analyze cfg ev = Except.ok out) :
    out.genInfo = none ∧
    (∀ jr ∈ out.jets, jr.flavour = JetRec.reset.flavour ∧
      jr.bits 0 = JetRec.reset.bits 0) ∧
    out.puInfo.trueNumPU = PileUpInfoRec.reset.trueNumPU ∧
    out.puInfo.inTimePU = PileUpInfoRec.reset.inTimePU ∧
    out.mets.length = 2 ∧
    (∀ c : Config, "genInfo" ∈ beginJobBranches c ↔ c.runOnData = false) := by
  obtain ⟨pv, vRest, met, mRest, hpv, hmet, _, _, _, hjets, hdata, _⟩ :=
    analyze_ok_shape cfg ev out h
  obtain ⟨hmets, hgen, hpu⟩ := hdata hrd
  refine ⟨hgen, ?_, ?_, ?_, by rw [hmets]; rfl, ?_⟩
  · intro jr hjr
    rw [hjets] at hjr
    simp only [makeJets, List.mem_map] at hjr
    obtain ⟨j, hj, rfl⟩ := hjr
    constructor
    · show (makeJet cfg j).flavour = JetRec.reset.flavour
      have hf : (makeJet cfg j).flavour =
          if cfg.runOnData then JetRec.reset.flavour
          else j.hadronFlavour := rfl
      rw [hf, if_pos hrd]
    · have hb : (makeJet cfg j).bits = selectorBits cfg.jetSelectors j 1
          (if cfg.runOnData then JetRec.reset.bits
           else setBitField JetRec.reset.bits 0 (jetGenMatch j)) := rfl
      rw [hb, selectorBits_below cfg.jetSelectors j 1 0 _ (by omega),
        if_pos hrd]
  · rw [hpu]; rfl
  · rw [hpu]; rfl
  · intro c
    by_cases hc : c.runOnData = true
    · simp [beginJobBranches, hc]
    · have hcf : c.runOnData = false := by simpa using hc
      simp [beginJobBranches, hcf]

/-- Witness for C6 at the concrete real-data event. -/
theorem C6_real_data_gating_witness :
    cfgData.runOnData = true ∧
    analyze cfgData evData = Except.ok outData ∧
    outData.genInfo = none ∧ outData.mets.length = 2 := by
  have h : analyze cfgData evData = Except.ok outData := rfl
  have hc := C6_real_data_gating cfgData evData outData rfl h
  exact ⟨rfl, h, hc.1, hc.2.2.2.2.1⟩

/-- Claim C7 counterexample: on real data the raw-type MET record is
still emitted.  For the concrete real-data event the stored MET list has
two entries, the nominal type-1 value 30 and the raw value 17, although
the claim gates the raw-type record on the real-data flag being
false. -/
theorem C7_counterexample :
    cfgData.runOnData = true ∧
    analyze cfgData evData = Except.ok outData ∧
    outData.mets.map Candidate.pt = [30, 17] :=
  ⟨rfl, rfl, rfl⟩

/-- Claim C7 (amended): every successful run emits exactly one nominal
type-1 record and one raw-type record for the configured MET source; the
twelve systematic-variation records and the one generator-level record
are emitted in addition exactly when the real-data flag is false.  Only
the variation and generator-level records are gated; the raw-type record
is unconditional. -/
theorem C7_met_records (cfg : Config) (ev : Event) (out : Output)
    (met : SrcMET) (mRest : List SrcMET)
    (hm : ev.met = met :: mRest) (h : analyze cfg ev = Except.ok out) :
    (cfg.runOnData = true →
      out.mets = [metRecord met .NoShift .Type1,
        metRecord met .NoShift .Raw]) ∧
    (cfg.runOnData = false →
      ∃ g, met.genMET = some g ∧
        out.mets = [metRecord met .NoShift .Type1,
            metRecord met .NoShift .Raw]
          ++ metVariations.map (fun v => metRecord met v .Type1)
          ++ [{ Candidate.reset with pt := g.1, phi := g.2 }]) ∧
    metVariations.length = 12 := by
  obtain ⟨pv, vRest, met2, mRest2, hpv, hmet2, _, _, _, _, hdata, hsim⟩ :=
    analyze_ok_shape cfg ev out h
  have hcons := hm.symm.trans hmet2
  injection hcons with h1 h2
  subst h1
  refine ⟨fun hrd => (hdata hrd).1, fun hrd => ?_, rfl⟩
  obtain ⟨g, front, pRest, hg, _, hmets, _, _⟩ := hsim hrd
  exact ⟨g, hg, hmets⟩

/-- Witness for the amended C7 at the concrete simulation event: analyze
succeeds, there are twelve variation kinds, and fifteen MET records are
stored in total. -/
theorem C7_met_records_witness :
    evSim.met = [metSim] ∧
    analyze cfgSim evSim = Except.ok outSim ∧
    metVariations.length = 12 ∧
    outSim.mets.length = 15 := by
  have h : analyze cfgSim evSim = Except.ok outSim := rfl
  have hc := C7_met_records cfgSim evSim outSim metSim [] rfl h
  exact ⟨rfl, h, hc.2.2, rfl⟩

/-- Claim C8: the pipeline consults nothing outside its two arguments, so
running it twice on the same configuration and event yields identical
record sets: the two components of analyzeTwice agree. -/
theorem C8_deterministic (cfg : Config) (ev : Event) :
    (analyzeTwice cfg ev).1 = (analyzeTwice cfg ev).2 := rfl

/-- Claim C9: beyond the explicitly checked vertex collection, analyze
succeeds exactly under the unchecked-access precondition: the MET
collection is non-empty and, on simulation, the generator-MET pointer of
its first element is non-null and the pile-up summary is non-empty.
When the precondition fails the run ends with the undefined-access
outcome, reflecting front() or pointer accesses the source performs with
no emptiness or null checks. -/
theorem C9_unchecked_access (cfg : Config) (ev : Event)
    (hv : ev.primaryVertices ≠ []) :
    ((∃ out, analyze cfg ev = Except.ok out) ↔ accessPre cfg ev) ∧
    (¬ accessPre cfg ev →
      analyze cfg ev = Except.error AnalyzeError.undefinedAccess) := by
  unfold analyze accessPre
  cases hpv : ev.primaryVertices with
  | nil => exact absurd hpv hv
  | cons pv vRest =>
    cases hmet : ev.met with
    | nil => simp
    | cons met mRest =>
      by_cases hd : cfg.runOnData = true
      · simp [hd]
      · have hdf : cfg.runOnData = false := by simpa using hd
        simp only [hdf, Bool.false_eq_true, if_false]
        cases hgm : met.genMET with
        | none => simp
        | some g =>
          cases hpu : ev.puSummary with
          | nil => simp
          | cons front pRest => simp

/-- Witness for C9 at the concrete real-data event, which has one
vertex. -/
theorem C9_unchecked_access_witness :
    evData.primaryVertices ≠ [] ∧
    ((∃ out, analyze cfgData evData = Except.ok out) ↔
      accessPre cfgData evData) := by
  have hv : evData.primaryVertices ≠ [] := by
    simp [evData]
  exact ⟨hv, (C9_unchecked_access cfgData evData hv).1⟩

/-- Claim C10: on simulation the true-interaction count is copied from
the first pile-up summary entry regardless of its bunch crossing; the
in-time count is copied from the first entry whose bunch crossing is
zero, and when no entry has bunch crossing zero the field keeps the
neutral value left by Reset, with no error raised. -/
theorem C10_in_time_pileup (cfg : Config) (ev : Event) (out : Output)
    (hrd : cfg.runOnData = false) (h : analyze cfg ev = Except.ok out)
    (front : PileupSummaryInfo) (pRest : List PileupSummaryInfo)
    (hp : ev.puSummary = front :: pRest) :
    out.puInfo.trueNumPU = front.trueNumInteractions ∧
    (∀ e, ev.puSummary.find? (fun x => x.bunchCrossing == 0) = some e →
      out.puInfo.inTimePU = e.numInteractions) ∧
    ((∀ e ∈ ev.puSummary, e.bunchCrossing ≠ 0) →
      out.puInfo.inTimePU = PileUpInfoRec.reset.inTimePU) := by
  obtain ⟨pv, vRest, met, mRest, hpv, hmet, _, _, _, _, _, hsim⟩ :=
    analyze_ok_shape cfg ev out h
  obtain ⟨g, front2, pRest2, hg, hp2, hmets, hgen, hpu⟩ := hsim hrd
  have hcons := hp.symm.trans hp2
  injection hcons with h1 h2
  subst h1
  rw [hpu]
  unfold setSimPileUp
  refine ⟨?_, ?_, ?_⟩
  · cases hf : ev.puSummary.find? (fun e => e.bunchCrossing == 0) <;>
      simp [hf]
  · intro e he
    rw [he]
  · intro hall
    have hnone : ev.puSummary.find? (fun e => e.bunchCrossing == 0)
        = none := by
      rw [List.find?_eq_none]
      intro x hx
      simpa using hall x hx
    rw [hnone]
    rfl

/-- Witness for C10 at the concrete simulation event, whose single
pile-up summary entry sits at bunch crossing 5: the stored true count is
taken from it and the in-time count keeps the reset value. -/
theorem C10_in_time_pileup_witness :
    cfgSim.runOnData = false ∧
    evSim.puSummary = [puSim] ∧
    (∀ e ∈ evSim.puSummary, e.bunchCrossing ≠ 0) ∧
    outSim.puInfo.trueNumPU = puSim.trueNumInteractions ∧
    outSim.puInfo.inTimePU = PileUpInfoRec.reset.inTimePU := by
  have h : analyze cfgSim evSim = Except.ok outSim := rfl
  have hc := C10_in_time_pileup cfgSim evSim outSim rfl h puSim [] rfl
  have hall : ∀ e ∈ evSim.puSummary, e.bunchCrossing ≠ 0 := by
    intro e he
    simp [evSim] at he
    subst he
    decide
  exact ⟨rfl, rfl, hall, hc.1, hc.2.2 hall⟩

end PEC
